import Mathlib

/-!
# Kafka topic waiter and topic resource of the Aiven provider

A shallow embedding of `kafka_topic_change.go` and of the topic resource functions of
`resource_kafka_topic.go`.

* Go strings are Lean `String`s; only equality and concatenation are used by the source.
* The remote client (`*aiven.Client`) is the world the functions act on: a value of
  `Client` holds what the remote service is going to answer and the log of the calls made,
  and is passed through the functions explicitly.
* Runtime panics and an exhausted answer script are explicit results (`Run`).
* The `log.Printf` calls write to the log only and are left out.
-/

namespace Aiven

/-! ## Values of the client library -/

/-- An error value handed back by the client library. `Error()` is its text; `kind` is the
rest of its identity (dynamic type, status and so on), never inspected by the source. -/
structure ClientError where
  kind : String
  text : String
deriving DecidableEq, Repr

/-- The method `Error()` of an error of the client. -/
def ClientError.Error (e : ClientError) : String := e.text

/-- The topic snapshot `*aiven.KafkaTopic`, with the fields the source reads. The elements
of `Partitions` are never inspected by the source (only `len` is taken). -/
structure KafkaTopic where
  TopicName : String
  State : String
  Partitions : List Unit
  Replication : Int
  CleanupPolicy : String
  MinimumInSyncReplicas : Int
  RetentionBytes : Int
  RetentionHours : Int
deriving DecidableEq, Repr

/-- What one call of `client.KafkaTopics.Get` hands back: a snapshot with a nil error, or a
nil snapshot with an error. -/
inductive GetAnswer where
  | topic (p : KafkaTopic)
  | err (e : ClientError)
deriving DecidableEq, Repr

/-! ## Go library functions used by the source -/

/-- The order `<` of Go strings on character sequences: lexicographic, a proper prefix
first (the order of the UTF-8 bytes is that of the code points). -/
def strings.less : List Char → List Char → Bool
  | _, [] => false
  | [], _ :: _ => true
  | a :: as, b :: bs => decide (a.toNat < b.toNat) || (a == b && strings.less as bs)

/-- Go `strings.Compare`: 0 when equal, -1 when `a < b`, +1 otherwise. -/
def strings.Compare (a b : String) : Int :=
  if a = b then 0 else if strings.less a.data b.data then -1 else 1

/-- Durations are counted in nanoseconds, as `time.Duration` does. -/
abbrev Duration := Nat

/-- Go `time.Second`. -/
def time.Second : Duration := 1000000000

/-- Go `time.Minute`. -/
def time.Minute : Duration := 60 * time.Second

/-! ## kafka_topic_change.go -/

/-- The triple `(interface{}, string, error)` that a `resource.StateRefreshFunc` returns. -/
structure RefreshResult where
  payload : Option KafkaTopic
  state : String
  err : Option ClientError
deriving DecidableEq, Repr

/-- The fields of `resource.StateChangeConf` that the source sets. `Refresh` is the probe,
as a function of what the client answers at that invocation. -/
structure StateChangeConf where
  Pending : List String
  Target : List String
  Refresh : GetAnswer → RefreshResult
  Delay : Duration
  Timeout : Duration
  MinTimeout : Duration

/-- The struct `KafkaTopicChangeWaiter`. Its `Client` pointer is the client state that the
resource functions pass along; the probe receives the client's answer as its argument. -/
structure KafkaTopicChangeWaiter where
  Project : String
  ServiceName : String
  Topic : String
deriving DecidableEq, Repr

/-- The closure built by `RefreshFunc`, applied to the answer of
`w.Client.KafkaTopics.Get(w.Project, w.ServiceName, w.Topic)`. -/
def KafkaTopicChangeWaiter.RefreshFunc (w : KafkaTopicChangeWaiter) :
    GetAnswer → RefreshResult
  | .err e =>
    if strings.Compare e.Error ("Topic '" ++ w.Topic ++ "' does not exist") = 0 then
      { payload := none, state := "CONFIGURING", err := none }
    else
      { payload := none, state := "", err := some e }
  | .topic topic =>
    { payload := some topic, state := topic.State, err := none }

/-- The method `Conf`. -/
def KafkaTopicChangeWaiter.Conf (w : KafkaTopicChangeWaiter) : StateChangeConf :=
  { Pending := ["CONFIGURING"]
    Target := ["ACTIVE"]
    Refresh := w.RefreshFunc
    Delay := 10 * time.Second
    Timeout := 10 * time.Minute
    MinTimeout := 2 * time.Second }

/-! ## The polling engine -/

/-- The failures of a wait, as the specification names them; each carries the last state
label and payload seen. -/
inductive WaitError where
  | FatalProbeError (cause : ClientError)
  | Timeout (lastState : String) (lastPayload : Option KafkaTopic)
  | UnexpectedState (lastState : String) (lastPayload : Option KafkaTopic)
deriving DecidableEq, Repr

/-- The outcome of a wait: the final payload and state label, or a failure. -/
inductive WaitOutcome where
  | success (payload : Option KafkaTopic) (label : String)
  | failure (e : WaitError)
deriving DecidableEq, Repr

/-- A finished wait: its outcome, the number of probe invocations it made and the time it
spent sleeping. -/
structure WaitResult where
  outcome : WaitOutcome
  calls : Nat
  elapsed : Duration
deriving DecidableEq, Repr

/-- Modelled from the spec: the polling loop of `WaitForState` (steps 2 to 5 of the
specified `Wait`), whose code belongs to the host framework and is not among the sources.
`answers` is what the client answers at the successive probe invocations, `elapsed` the time
slept so far and `calls` the probes already made. A probe error is fatal at once; a label in
`Target` is success; a label in `Pending` gives a timeout error when `elapsed` has reached
`Timeout`, and otherwise a sleep of `MinTimeout` and another probe; any other label is an
unexpected state. Probe calls are taken as instantaneous: `elapsed` counts the sleeps, a
lower bound of the real time, which grows further when the spacing of the probes backs off.
A limit of the framework on the number of probes that return no payload is not part of the
specified loop and is not modelled here. The result is `none` when the answers run out while
the loop is still polling. -/
def waitLoop (conf : StateChangeConf) : List GetAnswer → Duration → Nat → Option WaitResult
  | [], _, _ => none
  | a :: rest, elapsed, calls =>
    match (conf.Refresh a).err with
    | some e => some ⟨.failure (.FatalProbeError e), calls + 1, elapsed⟩
    | none =>
      if (conf.Refresh a).state ∈ conf.Target then
        some ⟨.success (conf.Refresh a).payload (conf.Refresh a).state, calls + 1, elapsed⟩
      else if (conf.Refresh a).state ∈ conf.Pending then
        if conf.Timeout ≤ elapsed then
          some ⟨.failure (.Timeout (conf.Refresh a).state (conf.Refresh a).payload),
            calls + 1, elapsed⟩
        else
          waitLoop conf rest (elapsed + conf.MinTimeout) (calls + 1)
      else
        some ⟨.failure (.UnexpectedState (conf.Refresh a).state (conf.Refresh a).payload),
          calls + 1, elapsed⟩

/-- Modelled from the spec: the method `WaitForState` of `resource.StateChangeConf` (the
specified `Wait`), whose code belongs to the host framework and is not among the sources:
sleep `Delay` (step 1), then run the polling loop. -/
def StateChangeConf.WaitForState (conf : StateChangeConf) (answers : List GetAnswer) :
    Option WaitResult :=
  waitLoop conf answers conf.Delay 0

/-! ## resource_kafka_topic.go -/

/-- A Go runtime panic: an index expression out of range. -/
inductive GoPanic where
  | indexOutOfRange (index len : Nat)
deriving DecidableEq, Repr

/-- How a call ends: it returns, it panics, or the scripted answers of the client ran out
before it could finish. -/
inductive Run (α : Type) where
  | done (a : α)
  | panicked (p : GoPanic)
  | starved
deriving Repr

/-- Splitting a character sequence at every occurrence of `sep`. -/
def splitChars (sep : Char) : List Char → List (List Char)
  | [] => [[]]
  | c :: cs =>
    if c = sep then [] :: splitChars sep cs
    else
      match splitChars sep cs with
      | [] => [[c]]
      | seg :: segs => (c :: seg) :: segs

/-- Go `strings.Split` for a separator of one character, the only use the source makes of
it: all the pieces between the separators, at least one piece always. -/
def strings.Split (s : String) (sep : Char) : List String :=
  (splitChars sep s.data).map String.mk

/-- The Go index expression `s[i]` on a slice. -/
def index {α : Type} (s : List α) (i : Nat) : Except GoPanic α :=
  match s.get? i with
  | some a => .ok a
  | none => .error (.indexOutOfRange i s.length)

/-- The function `resourceKafkaParseTopicID`. -/
def resourceKafkaParseTopicID (id : String) : Except GoPanic (String × String × String) :=
  let s := strings.Split id '/'
  do
    let project ← index s 0
    let serviceName ← index s 1
    let topic ← index s 2
    pure (project, serviceName, topic)

/-- A value of an attribute of a resource. -/
inductive Value where
  | str (s : String)
  | int (i : Int)
deriving DecidableEq, Repr

/-- The state of a `*schema.ResourceData`: the resource ID and the attributes written so
far, most recent first. -/
structure ResourceData where
  id : String
  attrs : List (String × Value)
deriving DecidableEq, Repr

/-- The method `Id`. -/
def ResourceData.Id (d : ResourceData) : String := d.id

/-- The method `SetId`. -/
def ResourceData.SetId (d : ResourceData) (v : String) : ResourceData := { d with id := v }

/-- The method `Set`. -/
def ResourceData.Set (d : ResourceData) (key : String) (v : Value) : ResourceData :=
  { d with attrs := (key, v) :: d.attrs }

/-- The expression `d.Get(key).(string)` on a key that the schema types as a string: the
zero value when the key is unset. -/
def ResourceData.GetString (d : ResourceData) (key : String) : String :=
  match d.attrs.lookup key with
  | some (.str s) => s
  | _ => ""

/-- The expression `d.Get(key).(int)` on a key that the schema types as an integer. -/
def ResourceData.GetInt (d : ResourceData) (key : String) : Int :=
  match d.attrs.lookup key with
  | some (.int i) => i
  | _ => 0

/-- The struct `aiven.CreateKafkaTopicRequest`, pointers as options. -/
structure CreateKafkaTopicRequest where
  CleanupPolicy : Option String
  MinimumInSyncReplicas : Option Int
  Partitions : Option Int
  Replication : Option Int
  RetentionBytes : Option Int
  RetentionHours : Option Int
  TopicName : String
deriving DecidableEq, Repr

/-- A call made on the remote client. -/
inductive Call where
  | create (project service : String) (req : CreateKafkaTopicRequest)
  | get (project service topic : String)
deriving DecidableEq, Repr

/-- The remote service seen through `*aiven.Client`: what it answers to a create call, what
it is going to answer to the successive `Get` calls, and the calls made so far. -/
structure Client where
  createAnswer : String → String → CreateKafkaTopicRequest → Option ClientError
  getAnswers : List GetAnswer
  calls : List Call

/-- The call `client.KafkaTopics.Create`. -/
def KafkaTopics.Create (c : Client) (project service : String)
    (req : CreateKafkaTopicRequest) : Option ClientError × Client :=
  (c.createAnswer project service req,
    { c with calls := c.calls ++ [.create project service req] })

/-- The call `client.KafkaTopics.Get`: the next scripted answer, if any is left. -/
def KafkaTopics.Get (c : Client) (project service topic : String) :
    Option (GetAnswer × Client) :=
  match c.getAnswers with
  | [] => none
  | a :: rest =>
    some (a, { c with getAnswers := rest, calls := c.calls ++ [.get project service topic] })

/-- The errors that the resource functions return: an error of the client as it is, or the
value of `fmt.Errorf(pfx + "%s", cause)` around a failure of the wait. -/
inductive GoError where
  | client (e : ClientError)
  | errorf (pfx : String) (cause : WaitError)
deriving DecidableEq, Repr

/-- The method `Error()` of a returned error, given the texts of the failures of the wait
(`txt` on a fatal probe error is the text of its cause). -/
def GoError.Error (txt : WaitError → String) : GoError → String
  | .client e => e.Error
  | .errorf pfx cause => pfx ++ txt cause

/-- The helpers `optionalStringPointer` and `optionalIntPointer` of the provider, which are
not among the sources. -/
structure Helpers where
  optionalStringPointer : ResourceData → String → Option String
  optionalIntPointer : ResourceData → String → Option Int

/-- The function `resourceKafkaTopicWait`. Each probe of the wait is one `Get` call on the
client, for the project, service and topic of the waiter. -/
def resourceKafkaTopicWait (d : ResourceData) (m : Client) : Run (Option GoError × Client) :=
  let w : KafkaTopicChangeWaiter :=
    { Project := d.GetString "project"
      ServiceName := d.GetString "service_name"
      Topic := d.GetString "topic" }
  match w.Conf.WaitForState m.getAnswers with
  | none => .starved
  | some r =>
    let m1 : Client :=
      { m with
        getAnswers := m.getAnswers.drop r.calls
        calls := m.calls ++ List.replicate r.calls (.get w.Project w.ServiceName w.Topic) }
    match r.outcome with
    | .failure err =>
      .done (some (.errorf "Error waiting for Aiven Kafka topic to be ACTIVE: " err), m1)
    | .success _ _ => .done (none, m1)

/-- The function `resourceKafkaTopicRead`. -/
def resourceKafkaTopicRead (d : ResourceData) (m : Client) :
    Run (Option GoError × ResourceData × Client) :=
  match resourceKafkaParseTopicID d.Id with
  | .error p => .panicked p
  | .ok (project, serviceName, topicName) =>
    match KafkaTopics.Get m project serviceName topicName with
    | none => .starved
    | some (.err err, m1) => .done (some (.client err), d, m1)
    | some (.topic topic, m1) =>
      let d := d.Set "project" (.str project)
      let d := d.Set "service_name" (.str serviceName)
      let d := d.Set "topic" (.str topic.TopicName)
      let d := d.Set "state" (.str topic.State)
      let d := d.Set "partitions" (.int topic.Partitions.length)
      let d := d.Set "replication" (.int topic.Replication)
      let d := d.Set "cleanup_policy" (.str topic.CleanupPolicy)
      let d := d.Set "minimum_in_sync_replicas" (.int topic.MinimumInSyncReplicas)
      let d := d.Set "retention_bytes" (.int topic.RetentionBytes)
      let d := d.Set "retention_hours" (.int topic.RetentionHours)
      .done (none, d, m1)

/-- The function `resourceKafkaTopicCreate`. -/
def resourceKafkaTopicCreate (h : Helpers) (d : ResourceData) (m : Client) :
    Run (Option GoError × ResourceData × Client) :=
  let project := d.GetString "project"
  let serviceName := d.GetString "service_name"
  let topic := d.GetString "topic"
  let partitions := d.GetInt "partitions"
  let replication := d.GetInt "replication"
  let created := KafkaTopics.Create m project serviceName
    { CleanupPolicy := h.optionalStringPointer d "cleanup_policy"
      MinimumInSyncReplicas := h.optionalIntPointer d "minimum_in_sync_replicas"
      Partitions := some partitions
      Replication := some replication
      RetentionBytes := h.optionalIntPointer d "retention_bytes"
      RetentionHours := h.optionalIntPointer d "retention_hours"
      TopicName := topic }
  match created.1 with
  | some err => .done (some (.client err), d.SetId "", created.2)
  | none =>
    match resourceKafkaTopicWait d created.2 with
    | .panicked p => .panicked p
    | .starved => .starved
    | .done (some err, m1) => .done (some err, d.SetId "", m1)
    | .done (none, m1) =>
      resourceKafkaTopicRead (d.SetId (project ++ "/" ++ serviceName ++ "/" ++ topic)) m1

/-! # Theorems -/

/-! ## The probe -/

theorem strings_Compare_eq_zero (a b : String) : strings.Compare a b = 0 ↔ a = b := by
  unfold strings.Compare
  by_cases h : a = b
  · simp [h]
  · simp only [h, if_false, iff_false]
    split <;> decide

theorem RefreshFunc_err_benign (w : KafkaTopicChangeWaiter) (e : ClientError)
    (h : e.Error = "Topic '" ++ w.Topic ++ "' does not exist") :
    w.RefreshFunc (.err e) = ⟨none, "CONFIGURING", none⟩ := by
  simp [KafkaTopicChangeWaiter.RefreshFunc, strings_Compare_eq_zero, h]

theorem RefreshFunc_err_other (w : KafkaTopicChangeWaiter) (e : ClientError)
    (h : e.Error ≠ "Topic '" ++ w.Topic ++ "' does not exist") :
    w.RefreshFunc (.err e) = ⟨none, "", some e⟩ := by
  simp [KafkaTopicChangeWaiter.RefreshFunc, strings_Compare_eq_zero, h]

theorem string_append_right_eq_self (a b : String) : a ++ b = a ↔ b = "" := by
  constructor
  · intro h
    have h1 := congrArg String.length h
    rw [String.length_append] at h1
    have h2 : b.length = 0 := by omega
    exact String.ext (List.length_eq_zero.mp h2)
  · rintro rfl
    simp

theorem string_sandwich_eq_self (pre b suf : String) :
    pre ++ b ++ suf = b ↔ pre = "" ∧ suf = "" := by
  constructor
  · intro h
    have h1 := congrArg String.length h
    simp only [String.length_append] at h1
    have h2 : pre.length = 0 := by omega
    have h3 : suf.length = 0 := by omega
    exact ⟨String.ext (List.length_eq_zero.mp h2), String.ext (List.length_eq_zero.mp h3)⟩
  · rintro ⟨rfl, rfl⟩
    simp

/-! ## The polling loop -/

theorem waitLoop_cons_err (conf : StateChangeConf) (a : GetAnswer) (rest : List GetAnswer)
    (e : Duration) (c : Nat) (err : ClientError) (h : (conf.Refresh a).err = some err) :
    waitLoop conf (a :: rest) e c = some ⟨.failure (.FatalProbeError err), c + 1, e⟩ := by
  simp [waitLoop, h]

theorem waitLoop_cons_target (conf : StateChangeConf) (a : GetAnswer) (rest : List GetAnswer)
    (e : Duration) (c : Nat) (h : (conf.Refresh a).err = none)
    (ht : (conf.Refresh a).state ∈ conf.Target) :
    waitLoop conf (a :: rest) e c
      = some ⟨.success (conf.Refresh a).payload (conf.Refresh a).state, c + 1, e⟩ := by
  simp [waitLoop, h, ht]

theorem waitLoop_cons_pending (conf : StateChangeConf) (a : GetAnswer) (rest : List GetAnswer)
    (e : Duration) (c : Nat) (h : (conf.Refresh a).err = none)
    (ht : (conf.Refresh a).state ∉ conf.Target) (hp : (conf.Refresh a).state ∈ conf.Pending)
    (hlt : e < conf.Timeout) :
    waitLoop conf (a :: rest) e c = waitLoop conf rest (e + conf.MinTimeout) (c + 1) := by
  simp [waitLoop, h, ht, hp, Nat.not_le.mpr hlt]

theorem waitLoop_cons_timeout (conf : StateChangeConf) (a : GetAnswer) (rest : List GetAnswer)
    (e : Duration) (c : Nat) (h : (conf.Refresh a).err = none)
    (ht : (conf.Refresh a).state ∉ conf.Target) (hp : (conf.Refresh a).state ∈ conf.Pending)
    (hle : conf.Timeout ≤ e) :
    waitLoop conf (a :: rest) e c
      = some ⟨.failure (.Timeout (conf.Refresh a).state (conf.Refresh a).payload), c + 1, e⟩ := by
  simp [waitLoop, h, ht, hp, hle]

theorem waitLoop_cons_unexpected (conf : StateChangeConf) (a : GetAnswer)
    (rest : List GetAnswer) (e : Duration) (c : Nat) (h : (conf.Refresh a).err = none)
    (ht : (conf.Refresh a).state ∉ conf.Target) (hp : (conf.Refresh a).state ∉ conf.Pending) :
    waitLoop conf (a :: rest) e c
      = some ⟨.failure (.UnexpectedState (conf.Refresh a).state (conf.Refresh a).payload),
          c + 1, e⟩ := by
  simp [waitLoop, h, ht, hp]

/-- A loop that is still polling when its answers run out went through all of them, and
goes on with whatever answers follow. -/
theorem waitLoop_none_append (conf : StateChangeConf) (pre l : List GetAnswer) :
    ∀ (e : Duration) (c : Nat), waitLoop conf pre e c = none →
      waitLoop conf (pre ++ l) e c
        = waitLoop conf l (e + pre.length * conf.MinTimeout) (c + pre.length) := by
  induction pre with
  | nil => intro e c _; simp
  | cons a pre ih =>
    intro e c h
    cases herr : (conf.Refresh a).err with
    | some err => rw [waitLoop_cons_err conf a pre e c err herr] at h; cases h
    | none =>
      by_cases ht : (conf.Refresh a).state ∈ conf.Target
      · rw [waitLoop_cons_target conf a pre e c herr ht] at h; cases h
      · by_cases hp : (conf.Refresh a).state ∈ conf.Pending
        · by_cases hlt : e < conf.Timeout
          · rw [waitLoop_cons_pending conf a pre e c herr ht hp hlt] at h
            rw [List.cons_append, waitLoop_cons_pending conf a _ e c herr ht hp hlt,
              ih _ _ h, List.length_cons]
            congr 1 <;> ring
          · rw [waitLoop_cons_timeout conf a pre e c herr ht hp (Nat.not_lt.mp hlt)] at h
            cases h
        · rw [waitLoop_cons_unexpected conf a pre e c herr ht hp] at h; cases h

/-- A successful loop ended on a probe without error whose label is a target state; that
probe is the last one made. -/
theorem waitLoop_success_last (conf : StateChangeConf) (l : List GetAnswer) :
    ∀ (e : Duration) (c : Nat) (r : WaitResult) (p : Option KafkaTopic) (s : String),
      waitLoop conf l e c = some r → r.outcome = .success p s →
      ∃ k a, l.get? k = some a ∧ r.calls = c + k + 1 ∧ (conf.Refresh a).err = none ∧
        (conf.Refresh a).state = s ∧ (conf.Refresh a).payload = p ∧ s ∈ conf.Target := by
  induction l with
  | nil => intro e c r p s h; simp [waitLoop] at h
  | cons a l ih =>
    intro e c r p s h hs
    cases herr : (conf.Refresh a).err with
    | some err =>
      rw [waitLoop_cons_err conf a l e c err herr] at h
      cases h; cases hs
    | none =>
      by_cases ht : (conf.Refresh a).state ∈ conf.Target
      · rw [waitLoop_cons_target conf a l e c herr ht] at h
        cases h; cases hs
        exact ⟨0, a, rfl, rfl, herr, rfl, rfl, ht⟩
      · by_cases hp : (conf.Refresh a).state ∈ conf.Pending
        · by_cases hlt : e < conf.Timeout
          · rw [waitLoop_cons_pending conf a l e c herr ht hp hlt] at h
            obtain ⟨k, b, hk, hc, h1, h2, h3, h4⟩ := ih _ _ r p s h hs
            exact ⟨k + 1, b, hk, by omega, h1, h2, h3, h4⟩
          · rw [waitLoop_cons_timeout conf a l e c herr ht hp (Nat.not_lt.mp hlt)] at h
            cases h; cases hs
        · rw [waitLoop_cons_unexpected conf a l e c herr ht hp] at h
          cases h; cases hs

/-! ## Splitting the resource ID -/

theorem splitChars_ne_nil (sep : Char) (l : List Char) : splitChars sep l ≠ [] := by
  cases l with
  | nil => simp [splitChars]
  | cons c cs =>
    unfold splitChars
    split
    · simp
    · split <;> simp

theorem splitChars_length (sep : Char) (l : List Char) :
    (splitChars sep l).length = l.count sep + 1 := by
  induction l with
  | nil => simp [splitChars]
  | cons c cs ih =>
    unfold splitChars
    by_cases h : c = sep
    · subst h
      simp [ih]
    · have hne := splitChars_ne_nil sep cs
      rw [if_neg h, List.count_cons_of_ne (Ne.symm h)]
      cases hs : splitChars sep cs with
      | nil => exact absurd hs hne
      | cons seg segs =>
        rw [hs] at ih
        simpa using ih

theorem splitChars_no_sep (sep : Char) (l : List Char) (h : sep ∉ l) :
    splitChars sep l = [l] := by
  induction l with
  | nil => simp [splitChars]
  | cons c cs ih =>
    have hc : c ≠ sep := fun hc => h (hc ▸ List.mem_cons_self _ _)
    have hcs : sep ∉ cs := fun hm => h (List.mem_cons_of_mem _ hm)
    unfold splitChars
    rw [if_neg hc, ih hcs]

theorem splitChars_append_sep (sep : Char) (a rest : List Char) (h : sep ∉ a) :
    splitChars sep (a ++ sep :: rest) = a :: splitChars sep rest := by
  induction a with
  | nil => simp [splitChars]
  | cons c cs ih =>
    have hc : c ≠ sep := fun hc => h (hc ▸ List.mem_cons_self _ _)
    have hcs : sep ∉ cs := fun hm => h (List.mem_cons_of_mem _ hm)
    rw [List.cons_append, splitChars, if_neg hc, ih hcs]

theorem Split_length (id : String) (sep : Char) :
    (strings.Split id sep).length = id.data.count sep + 1 := by
  simp [strings.Split, splitChars_length]

theorem Split_joined (a b c : String) (ha : '/' ∉ a.data) (hb : '/' ∉ b.data) :
    strings.Split (a ++ "/" ++ b ++ "/" ++ c) '/' = a :: b :: strings.Split c '/' := by
  have hd : (a ++ "/" ++ b ++ "/" ++ c).data = a.data ++ '/' :: (b.data ++ '/' :: c.data) := by
    simp [String.data_append]
  unfold strings.Split
  rw [hd, splitChars_append_sep _ _ _ ha, splitChars_append_sep _ _ _ hb]
  simp

theorem Split_no_sep (c : String) (hc : '/' ∉ c.data) : strings.Split c '/' = [c] := by
  unfold strings.Split
  rw [splitChars_no_sep _ _ hc]
  simp

theorem ParseTopicID_of_three (id a b c : String) (rest : List String)
    (h : strings.Split id '/' = a :: b :: c :: rest) :
    resourceKafkaParseTopicID id = .ok (a, b, c) := by
  simp [resourceKafkaParseTopicID, h, index, bind, Except.bind, pure, Except.pure]

theorem ParseTopicID_of_one (id a : String) (h : strings.Split id '/' = [a]) :
    resourceKafkaParseTopicID id = .error (.indexOutOfRange 1 1) := by
  simp [resourceKafkaParseTopicID, h, index, bind, Except.bind, pure, Except.pure]

theorem ParseTopicID_of_two (id a b : String) (h : strings.Split id '/' = [a, b]) :
    resourceKafkaParseTopicID id = .error (.indexOutOfRange 2 2) := by
  simp [resourceKafkaParseTopicID, h, index, bind, Except.bind, pure, Except.pure]

theorem Split_head (t tail : String) (ht : '/' ∉ t.data) :
    strings.Split (t ++ "/" ++ tail) '/' = t :: strings.Split tail '/' := by
  have hd : (t ++ "/" ++ tail).data = t.data ++ '/' :: tail.data := by
    simp [String.data_append]
  unfold strings.Split
  rw [hd, splitChars_append_sep _ _ _ ht]
  simp

theorem resourceKafkaTopicRead_Id (d d1 : ResourceData) (m m1 : Client) (err : Option GoError)
    (h : resourceKafkaTopicRead d m = .done (err, d1, m1)) : d1.Id = d.Id := by
  unfold resourceKafkaTopicRead at h
  split at h
  · cases h
  · split at h
    · cases h
    · cases h; rfl
    · cases h; rfl

/-! ## Claims about the probe and the configuration -/

/-- C1: on an error `e` of the client's topic `Get`, the probe of a waiter for topic `t`
returns (nil payload, label "CONFIGURING", no error) if and only if the message of `e` is
exactly "Topic '" ++ t ++ "' does not exist". For the topic "foo" the message
"Topic 'foo' does not exist" is pending and "Topic 'bar' does not exist" is not; a message
that contains the benign text with something around it, or that is a proper prefix of it,
is not. -/
theorem RefreshFunc_benign_iff_exact (w : KafkaTopicChangeWaiter) (e : ClientError) :
    (w.RefreshFunc (.err e) = ⟨none, "CONFIGURING", none⟩
        ↔ e.Error = "Topic '" ++ w.Topic ++ "' does not exist") ∧
    (∀ project service kind : String,
      (KafkaTopicChangeWaiter.mk project service "foo").RefreshFunc
          (.err ⟨kind, "Topic 'foo' does not exist"⟩) = ⟨none, "CONFIGURING", none⟩ ∧
      (KafkaTopicChangeWaiter.mk project service "foo").RefreshFunc
          (.err ⟨kind, "Topic 'bar' does not exist"⟩)
        = ⟨none, "", some ⟨kind, "Topic 'bar' does not exist"⟩⟩) ∧
    (∀ (kind pre suf : String),
      w.RefreshFunc (.err ⟨kind, pre ++ ("Topic '" ++ w.Topic ++ "' does not exist") ++ suf⟩)
          = ⟨none, "CONFIGURING", none⟩ ↔ pre = "" ∧ suf = "") ∧
    (∀ (kind msg suf : String), msg ++ suf = "Topic '" ++ w.Topic ++ "' does not exist" →
      (w.RefreshFunc (.err ⟨kind, msg⟩) = ⟨none, "CONFIGURING", none⟩ ↔ suf = "")) := by
  have key : ∀ e : ClientError, w.RefreshFunc (.err e) = ⟨none, "CONFIGURING", none⟩
      ↔ e.Error = "Topic '" ++ w.Topic ++ "' does not exist" := by
    intro e
    constructor
    · intro h
      by_contra hne
      rw [RefreshFunc_err_other w e hne] at h
      simp at h
    · exact RefreshFunc_err_benign w e
  refine ⟨key e, ?_, ?_, ?_⟩
  · intro project service kind
    constructor
    · refine RefreshFunc_err_benign _ _ ?_
      show "Topic 'foo' does not exist" = "Topic '" ++ "foo" ++ "' does not exist"
      decide
    · refine RefreshFunc_err_other _ _ ?_
      show "Topic 'bar' does not exist" ≠ "Topic '" ++ "foo" ++ "' does not exist"
      decide
  · intro kind pre suf
    rw [key]
    exact string_sandwich_eq_self pre _ suf
  · intro kind msg suf h
    rw [key]
    show msg = _ ↔ _
    rw [← h]
    constructor
    · intro h2
      exact (string_append_right_eq_self msg suf).mp h2.symm
    · rintro rfl
      simp

/-- C2: on an error `e` of the client's topic `Get` whose message is not the benign text
for the topic of the waiter, the probe returns `e` itself as its error, with a nil payload
and the empty state label; that label is neither a pending nor a target state. -/
theorem RefreshFunc_other_error_returned (w : KafkaTopicChangeWaiter) (e : ClientError)
    (h : e.Error ≠ "Topic '" ++ w.Topic ++ "' does not exist") :
    w.RefreshFunc (.err e) = ⟨none, "", some e⟩ ∧
    (w.RefreshFunc (.err e)).err = some e ∧
    (w.RefreshFunc (.err e)).payload = none ∧
    (w.RefreshFunc (.err e)).state ∉ w.Conf.Pending ∧
    (w.RefreshFunc (.err e)).state ∉ w.Conf.Target := by
  rw [RefreshFunc_err_other w e h]
  simp [KafkaTopicChangeWaiter.Conf]

theorem RefreshFunc_other_error_returned_witness :
    (KafkaTopicChangeWaiter.mk "p" "s" "foo").RefreshFunc
        (.err ⟨"api", "Topic 'bar' does not exist"⟩)
      = ⟨none, "", some ⟨"api", "Topic 'bar' does not exist"⟩⟩ :=
  (RefreshFunc_other_error_returned ⟨"p", "s", "foo"⟩ ⟨"api", "Topic 'bar' does not exist"⟩
    (by decide)).1

/-- C6: for every waiter, `Conf` has pending states ["CONFIGURING"], target states
["ACTIVE"], an initial delay of 10 seconds, a minimum poll interval of 2 seconds and a
timeout of 10 minutes (600 seconds); two waiters get the same five values. -/
theorem Conf_values (w : KafkaTopicChangeWaiter) :
    w.Conf.Pending = ["CONFIGURING"] ∧ w.Conf.Target = ["ACTIVE"] ∧
    w.Conf.Delay = 10 * time.Second ∧ w.Conf.MinTimeout = 2 * time.Second ∧
    w.Conf.Timeout = 10 * time.Minute ∧ w.Conf.Timeout = 600 * time.Second ∧
    w.Conf.Delay = 10000000000 ∧ w.Conf.MinTimeout = 2000000000 ∧
    w.Conf.Timeout = 600000000000 ∧
    ∀ v : KafkaTopicChangeWaiter, v.Conf.Pending = w.Conf.Pending ∧
      v.Conf.Target = w.Conf.Target ∧ v.Conf.Delay = w.Conf.Delay ∧
      v.Conf.MinTimeout = w.Conf.MinTimeout ∧ v.Conf.Timeout = w.Conf.Timeout := by
  refine ⟨rfl, rfl, rfl, rfl, rfl, ?_, ?_, ?_, ?_, ?_⟩
  · simp [KafkaTopicChangeWaiter.Conf, time.Minute, time.Second]
  · simp [KafkaTopicChangeWaiter.Conf, time.Second]
  · simp [KafkaTopicChangeWaiter.Conf, time.Second]
  · simp [KafkaTopicChangeWaiter.Conf, time.Minute, time.Second]
  · intro v
    exact ⟨rfl, rfl, rfl, rfl, rfl⟩

/-- C7: on a topic snapshot `p` that the client's topic `Get` returns without error, the
probe returns `p` itself as payload, the `State` field of `p` as state label and no error,
whatever that label is. -/
theorem RefreshFunc_topic_passthrough (w : KafkaTopicChangeWaiter) (p : KafkaTopic) :
    w.RefreshFunc (.topic p) = ⟨some p, p.State, none⟩ ∧
    (w.Conf.Refresh (.topic p)).state = p.State := by
  exact ⟨rfl, rfl⟩

/-! ## Claims about the wait -/

/-- C3: whenever `resourceKafkaTopicWait` returns a nil error, the wait consumed the answers
of the client up to some probe, the last one made, and the state label which the probe
reported there is "ACTIVE": a member of the target set and not of the pending set, and
reported without error, hence neither the label of a pending topic nor the synthetic
"CONFIGURING" of the benign error. -/
theorem resourceKafkaTopicWait_success_on_target (d : ResourceData) (m m1 : Client)
    (h : resourceKafkaTopicWait d m = .done (none, m1)) :
    ∃ (k : Nat) (a : GetAnswer) (w : KafkaTopicChangeWaiter),
      w = ⟨d.GetString "project", d.GetString "service_name", d.GetString "topic"⟩ ∧
      m.getAnswers.get? k = some a ∧ m1.getAnswers = m.getAnswers.drop (k + 1) ∧
      (w.RefreshFunc a).err = none ∧ (w.RefreshFunc a).state = "ACTIVE" ∧
      (w.RefreshFunc a).state ∈ w.Conf.Target ∧ (w.RefreshFunc a).state ∉ w.Conf.Pending := by
  unfold resourceKafkaTopicWait at h
  simp only at h
  split at h
  · cases h
  · rename_i r hr
    split at h
    · cases h
    · rename_i p s hout
      obtain ⟨k, a, hk, hc, h1, h2, _, h4⟩ := waitLoop_success_last _ _ _ _ r p s hr hout
      have hm1 : m1.getAnswers = m.getAnswers.drop r.calls := by
        cases h
        rfl
      have hA : s = "ACTIVE" := by
        simpa [KafkaTopicChangeWaiter.Conf] using h4
      refine ⟨k, a, _, rfl, hk, ?_, h1, ?_, ?_, ?_⟩
      · rw [hm1, hc]
        simp
      · exact h2.trans hA
      · exact h2 ▸ h4
      · have h2' : (KafkaTopicChangeWaiter.RefreshFunc
            ⟨d.GetString "project", d.GetString "service_name", d.GetString "topic"⟩ a).state
            = "ACTIVE" := h2.trans hA
        rw [h2']
        simp [KafkaTopicChangeWaiter.Conf]

theorem resourceKafkaTopicWait_success_on_target_witness :
    ∃ (k : Nat) (a : GetAnswer) (w : KafkaTopicChangeWaiter),
      w = ⟨"p", "s", "mytopic"⟩ ∧
      ([.err ⟨"api", "Topic 'mytopic' does not exist"⟩,
        .topic ⟨"mytopic", "CONFIGURING", [], 1, "delete", 1, -1, 72⟩,
        .topic ⟨"mytopic", "ACTIVE", [], 1, "delete", 1, -1, 72⟩] : List GetAnswer).get? k
        = some a ∧
      ([] : List GetAnswer) = List.drop (k + 1)
        [.err ⟨"api", "Topic 'mytopic' does not exist"⟩,
          .topic ⟨"mytopic", "CONFIGURING", [], 1, "delete", 1, -1, 72⟩,
          .topic ⟨"mytopic", "ACTIVE", [], 1, "delete", 1, -1, 72⟩] ∧
      (w.RefreshFunc a).err = none ∧ (w.RefreshFunc a).state = "ACTIVE" ∧
      (w.RefreshFunc a).state ∈ w.Conf.Target ∧ (w.RefreshFunc a).state ∉ w.Conf.Pending :=
  resourceKafkaTopicWait_success_on_target
    ⟨"", [("project", .str "p"), ("service_name", .str "s"), ("topic", .str "mytopic")]⟩
    ⟨fun _ _ _ => none,
      [.err ⟨"api", "Topic 'mytopic' does not exist"⟩,
        .topic ⟨"mytopic", "CONFIGURING", [], 1, "delete", 1, -1, 72⟩,
        .topic ⟨"mytopic", "ACTIVE", [], 1, "delete", 1, -1, 72⟩], []⟩
    ⟨fun _ _ _ => none, [],
      [.get "p" "s" "mytopic", .get "p" "s" "mytopic", .get "p" "s" "mytopic"]⟩
    rfl

/-- C5: for a state label `s` that is neither "CONFIGURING" nor "ACTIVE", the wait that is
still polling after the answers `pre` and then gets a topic in state `s` returns an
unexpected-state error at that very probe, the one numbered `pre.length + 1`, whatever
answers would follow; with no answers before, that is the first probe. -/
theorem WaitForState_unexpected_state (w : KafkaTopicChangeWaiter) (p : KafkaTopic)
    (pre rest : List GetAnswer) (h1 : p.State ≠ "CONFIGURING") (h2 : p.State ≠ "ACTIVE")
    (hpre : w.Conf.WaitForState pre = none) :
    w.Conf.WaitForState (pre ++ .topic p :: rest)
        = some ⟨.failure (.UnexpectedState p.State (some p)), pre.length + 1,
            w.Conf.Delay + pre.length * w.Conf.MinTimeout⟩ ∧
    w.Conf.WaitForState (.topic p :: rest)
        = some ⟨.failure (.UnexpectedState p.State (some p)), 1, w.Conf.Delay⟩ := by
  have hone : ∀ (e : Duration) (c : Nat), waitLoop w.Conf (.topic p :: rest) e c
      = some ⟨.failure (.UnexpectedState p.State (some p)), c + 1, e⟩ := by
    intro e c
    have := waitLoop_cons_unexpected w.Conf (.topic p) rest e c rfl
      (by simpa [KafkaTopicChangeWaiter.Conf, KafkaTopicChangeWaiter.RefreshFunc] using h2)
      (by simpa [KafkaTopicChangeWaiter.Conf, KafkaTopicChangeWaiter.RefreshFunc] using h1)
    simpa [KafkaTopicChangeWaiter.Conf, KafkaTopicChangeWaiter.RefreshFunc] using this
  constructor
  · unfold StateChangeConf.WaitForState at hpre ⊢
    rw [waitLoop_none_append _ _ _ _ _ hpre, hone]
    simp
  · unfold StateChangeConf.WaitForState
    rw [hone]

theorem WaitForState_unexpected_state_witness :
    (KafkaTopicChangeWaiter.mk "p" "s" "mytopic").Conf.WaitForState
        ([.err ⟨"api", "Topic 'mytopic' does not exist"⟩] ++
          .topic ⟨"mytopic", "DELETING", [], 1, "delete", 1, -1, 72⟩ ::
          [.topic ⟨"mytopic", "ACTIVE", [], 1, "delete", 1, -1, 72⟩])
      = some ⟨.failure (.UnexpectedState "DELETING"
          (some ⟨"mytopic", "DELETING", [], 1, "delete", 1, -1, 72⟩)), 2, 12000000000⟩ :=
  (WaitForState_unexpected_state ⟨"p", "s", "mytopic"⟩
    ⟨"mytopic", "DELETING", [], 1, "delete", 1, -1, 72⟩
    [.err ⟨"api", "Topic 'mytopic' does not exist"⟩]
    [.topic ⟨"mytopic", "ACTIVE", [], 1, "delete", 1, -1, 72⟩]
    (by decide) (by decide) (by decide)).1

/-- C4: the run of 21 benign errors followed by an "ACTIVE" topic, for the topic "mytopic".
The probe turns each of the 21 errors into a result without payload, with the label
"CONFIGURING" and no error, and the last answer into the topic itself with the label
"ACTIVE", a target state. For every waiter, the benign error gives a result without
payload. -/
theorem RefreshFunc_benign_run_nil_payload :
    (List.replicate 21 (GetAnswer.err ⟨"api", "Topic 'mytopic' does not exist"⟩) ++
        [GetAnswer.topic ⟨"mytopic", "ACTIVE", [], 1, "delete", 1, -1, 72⟩]).map
        (KafkaTopicChangeWaiter.mk "p" "s" "mytopic").Conf.Refresh
      = List.replicate 21 ⟨none, "CONFIGURING", none⟩ ++
        [⟨some ⟨"mytopic", "ACTIVE", [], 1, "delete", 1, -1, 72⟩, "ACTIVE", none⟩] ∧
    "ACTIVE" ∈ (KafkaTopicChangeWaiter.mk "p" "s" "mytopic").Conf.Target ∧
    ∀ (w : KafkaTopicChangeWaiter) (e : ClientError),
      e.Error = "Topic '" ++ w.Topic ++ "' does not exist" →
      (w.Conf.Refresh (.err e)).payload = none ∧
      (w.Conf.Refresh (.err e)).state = "CONFIGURING" ∧
      (w.Conf.Refresh (.err e)).err = none := by
  refine ⟨by decide, by decide, ?_⟩
  intro w e h
  have hr : w.Conf.Refresh (.err e) = ⟨none, "CONFIGURING", none⟩ :=
    RefreshFunc_err_benign w e h
  rw [hr]
  exact ⟨rfl, rfl, rfl⟩

/-! ## Claims about the resource ID -/

/-- C8: for strings `project`, `serviceName` and `topic` without the character '/',
parsing the ID project ++ "/" ++ serviceName ++ "/" ++ topic gives back exactly
(project, serviceName, topic); and for a topic name that continues after a '/', as in
topic ++ "/" ++ tail, the third component returned is `topic`, which differs from that
name. -/
theorem ParseTopicID_roundtrip (project serviceName topic : String)
    (hp : '/' ∉ project.data) (hs : '/' ∉ serviceName.data) (ht : '/' ∉ topic.data) :
    resourceKafkaParseTopicID (project ++ "/" ++ serviceName ++ "/" ++ topic)
        = .ok (project, serviceName, topic) ∧
    ∀ tail : String,
      resourceKafkaParseTopicID
          (project ++ "/" ++ serviceName ++ "/" ++ (topic ++ "/" ++ tail))
        = .ok (project, serviceName, topic) ∧
      topic ≠ topic ++ "/" ++ tail := by
  constructor
  · apply ParseTopicID_of_three _ _ _ _ []
    rw [Split_joined _ _ _ hp hs, Split_no_sep _ ht]
  · intro tail
    constructor
    · apply ParseTopicID_of_three _ _ _ _ (strings.Split tail '/')
      rw [Split_joined _ _ _ hp hs, Split_head _ _ ht]
    · intro h
      have h1 := congrArg String.length h
      simp only [String.length_append] at h1
      have h2 : "/".length = 1 := by decide
      omega

theorem ParseTopicID_roundtrip_witness :
    resourceKafkaParseTopicID ("proj" ++ "/" ++ "kafka-1" ++ "/" ++ "events")
        = .ok ("proj", "kafka-1", "events") ∧
    resourceKafkaParseTopicID ("proj" ++ "/" ++ "kafka-1" ++ "/" ++ ("events" ++ "/" ++ "v2"))
        = .ok ("proj", "kafka-1", "events") :=
  ⟨(ParseTopicID_roundtrip "proj" "kafka-1" "events" (by decide) (by decide) (by decide)).1,
    ((ParseTopicID_roundtrip "proj" "kafka-1" "events" (by decide) (by decide)
      (by decide)).2 "v2").1⟩

/-- C9: `resourceKafkaParseTopicID` returns exactly on the IDs with at least two '/'. On
such an ID it returns the first three pieces of the split; on an ID with fewer than two '/'
the index expression fails, `s[1]` of a slice of length 1 or `s[2]` of a slice of length 2.
The empty ID is of the second kind, and `resourceKafkaTopicRead` on a resource with such an
ID panics before any call on the client. -/
theorem ParseTopicID_safe_iff (id : String) :
    (2 ≤ id.data.count '/' → ∃ a b c rest, strings.Split id '/' = a :: b :: c :: rest ∧
      resourceKafkaParseTopicID id = .ok (a, b, c)) ∧
    (id.data.count '/' < 2 → resourceKafkaParseTopicID id
      = .error (.indexOutOfRange (id.data.count '/' + 1) (id.data.count '/' + 1))) ∧
    ((∃ r, resourceKafkaParseTopicID id = .ok r) ↔ 2 ≤ id.data.count '/') ∧
    resourceKafkaParseTopicID "" = .error (.indexOutOfRange 1 1) ∧
    (∀ (d : ResourceData) (m : Client), d.Id = id → id.data.count '/' < 2 →
      resourceKafkaTopicRead d m
        = .panicked (.indexOutOfRange (id.data.count '/' + 1) (id.data.count '/' + 1))) ∧
    (∀ (d : ResourceData) (m : Client), d.Id = "" →
      resourceKafkaTopicRead d m = .panicked (.indexOutOfRange 1 1)) := by
  have hlen := Split_length id '/'
  have hok : 2 ≤ id.data.count '/' → ∃ a b c rest,
      strings.Split id '/' = a :: b :: c :: rest ∧
      resourceKafkaParseTopicID id = .ok (a, b, c) := by
    intro h
    match hs : strings.Split id '/' with
    | [] => rw [hs] at hlen; simp at hlen
    | [_] => rw [hs] at hlen; simp at hlen; omega
    | [_, _] => rw [hs] at hlen; simp at hlen; omega
    | a :: b :: c :: rest => exact ⟨a, b, c, rest, rfl, ParseTopicID_of_three id a b c rest hs⟩
  have hbad : id.data.count '/' < 2 → resourceKafkaParseTopicID id
      = .error (.indexOutOfRange (id.data.count '/' + 1) (id.data.count '/' + 1)) := by
    intro h
    match hs : strings.Split id '/' with
    | [] => rw [hs] at hlen; simp at hlen
    | [a] =>
      rw [hs] at hlen
      have h0 : id.data.count '/' = 0 := by simpa using hlen.symm
      rw [h0]
      exact ParseTopicID_of_one id a hs
    | [a, b] =>
      rw [hs] at hlen
      have h1 : id.data.count '/' = 1 := by simpa using hlen.symm
      rw [h1]
      exact ParseTopicID_of_two id a b hs
    | _ :: _ :: _ :: rest => rw [hs] at hlen; simp at hlen; omega
  have hempty : resourceKafkaParseTopicID "" = .error (.indexOutOfRange 1 1) :=
    ParseTopicID_of_one "" "" (by decide)
  refine ⟨hok, hbad, ?_, hempty, ?_, ?_⟩
  · constructor
    · rintro ⟨r, hr⟩
      by_contra hlt
      rw [hbad (Nat.not_le.mp hlt)] at hr
      cases hr
    · intro h
      obtain ⟨a, b, c, _, _, hr⟩ := hok h
      exact ⟨_, hr⟩
  · intro d m hd hlt
    unfold resourceKafkaTopicRead
    rw [hd, hbad hlt]
  · intro d m hd
    unfold resourceKafkaTopicRead
    rw [hd, hempty]

theorem ParseTopicID_safe_iff_witness :
    (∃ a b c rest, strings.Split "p/s/t/u" '/' = a :: b :: c :: rest ∧
      resourceKafkaParseTopicID "p/s/t/u" = .ok (a, b, c)) ∧
    resourceKafkaParseTopicID "p/s" = .error (.indexOutOfRange 2 2) :=
  ⟨(ParseTopicID_safe_iff "p/s/t/u").1 (by decide),
    (ParseTopicID_safe_iff "p/s").2.1 (by decide)⟩

/-! ## Claims about the creation of a topic -/

/-- C10: `resourceKafkaTopicCreate` on a resource with the given project, service name and
topic, sending the request `req`. If the remote create call fails with `e`, the function
returns `e`, the ID is the empty string and the client has seen the create call only. If
the create call succeeds and the wait fails, the function returns the failure of the wait
behind the prefix "Error waiting for Aiven Kafka topic to be ACTIVE: ", the ID is the empty
string and the client has seen the create call and the probes of the wait only. If both
succeed, the function is the read on the resource whose ID is
project ++ "/" ++ serviceName ++ "/" ++ topic. Whenever the function returns, the ID is
either empty, with an error returned, or that joined ID, with the create call and the wait
both successful. -/
theorem resourceKafkaTopicCreate_id_all_or_nothing (h : Helpers) (d : ResourceData)
    (m : Client) (project serviceName topic : String) (req : CreateKafkaTopicRequest)
    (hproject : d.GetString "project" = project)
    (hservice : d.GetString "service_name" = serviceName)
    (htopic : d.GetString "topic" = topic)
    (hreq : req =
      { CleanupPolicy := h.optionalStringPointer d "cleanup_policy"
        MinimumInSyncReplicas := h.optionalIntPointer d "minimum_in_sync_replicas"
        Partitions := some (d.GetInt "partitions")
        Replication := some (d.GetInt "replication")
        RetentionBytes := h.optionalIntPointer d "retention_bytes"
        RetentionHours := h.optionalIntPointer d "retention_hours"
        TopicName := topic }) :
    (∀ e, m.createAnswer project serviceName req = some e →
      resourceKafkaTopicCreate h d m
        = .done (some (.client e), d.SetId "",
            { m with calls := m.calls ++ [.create project serviceName req] })) ∧
    (m.createAnswer project serviceName req = none →
      ∀ r, (KafkaTopicChangeWaiter.mk project serviceName topic).Conf.WaitForState m.getAnswers
          = some r →
        (∀ we, r.outcome = .failure we →
          resourceKafkaTopicCreate h d m
            = .done (some (.errorf "Error waiting for Aiven Kafka topic to be ACTIVE: " we),
                d.SetId "",
                { m with
                  getAnswers := m.getAnswers.drop r.calls
                  calls := m.calls ++ [.create project serviceName req] ++
                    List.replicate r.calls (.get project serviceName topic) }) ∧
          ∀ txt : WaitError → String,
            GoError.Error txt (.errorf "Error waiting for Aiven Kafka topic to be ACTIVE: " we)
              = "Error waiting for Aiven Kafka topic to be ACTIVE: " ++ txt we) ∧
        (∀ pl lbl, r.outcome = .success pl lbl →
          resourceKafkaTopicCreate h d m
            = resourceKafkaTopicRead (d.SetId (project ++ "/" ++ serviceName ++ "/" ++ topic))
                { m with
                  getAnswers := m.getAnswers.drop r.calls
                  calls := m.calls ++ [.create project serviceName req] ++
                    List.replicate r.calls (.get project serviceName topic) })) ∧
    (∀ err d1 m1, resourceKafkaTopicCreate h d m = .done (err, d1, m1) →
      (d1.Id = "" ∧ err ≠ none) ∨
      (d1.Id = project ++ "/" ++ serviceName ++ "/" ++ topic ∧
        m.createAnswer project serviceName req = none ∧
        ∃ r pl lbl, (KafkaTopicChangeWaiter.mk project serviceName topic).Conf.WaitForState
          m.getAnswers = some r ∧ r.outcome = .success pl lbl)) := by
  subst hreq
  have hfail : ∀ e, m.createAnswer project serviceName
      { CleanupPolicy := h.optionalStringPointer d "cleanup_policy"
        MinimumInSyncReplicas := h.optionalIntPointer d "minimum_in_sync_replicas"
        Partitions := some (d.GetInt "partitions")
        Replication := some (d.GetInt "replication")
        RetentionBytes := h.optionalIntPointer d "retention_bytes"
        RetentionHours := h.optionalIntPointer d "retention_hours"
        TopicName := topic } = some e →
      resourceKafkaTopicCreate h d m
        = .done (some (.client e), d.SetId "",
            { m with calls := m.calls ++ [.create project serviceName
              { CleanupPolicy := h.optionalStringPointer d "cleanup_policy"
                MinimumInSyncReplicas := h.optionalIntPointer d "minimum_in_sync_replicas"
                Partitions := some (d.GetInt "partitions")
                Replication := some (d.GetInt "replication")
                RetentionBytes := h.optionalIntPointer d "retention_bytes"
                RetentionHours := h.optionalIntPointer d "retention_hours"
                TopicName := topic }] }) := by
    intro e he
    simp only [resourceKafkaTopicCreate, KafkaTopics.Create, hproject, hservice, htopic, he]
  refine ⟨hfail, ?_, ?_⟩
  · intro hnone r hr
    constructor
    · intro we hwe
      refine ⟨?_, fun txt => rfl⟩
      simp only [resourceKafkaTopicCreate, KafkaTopics.Create, hproject, hservice, htopic,
        hnone, resourceKafkaTopicWait, hr, hwe]
    · intro pl lbl hs
      simp only [resourceKafkaTopicCreate, KafkaTopics.Create, hproject, hservice, htopic,
        hnone, resourceKafkaTopicWait, hr, hs]
  · intro err d1 m1 hrun
    cases hc : m.createAnswer project serviceName
      { CleanupPolicy := h.optionalStringPointer d "cleanup_policy"
        MinimumInSyncReplicas := h.optionalIntPointer d "minimum_in_sync_replicas"
        Partitions := some (d.GetInt "partitions")
        Replication := some (d.GetInt "replication")
        RetentionBytes := h.optionalIntPointer d "retention_bytes"
        RetentionHours := h.optionalIntPointer d "retention_hours"
        TopicName := topic } with
    | some e =>
      rw [hfail e hc] at hrun
      cases hrun
      exact Or.inl ⟨rfl, by simp⟩
    | none =>
      cases hr : (KafkaTopicChangeWaiter.mk project serviceName topic).Conf.WaitForState
          m.getAnswers with
      | none =>
        simp only [resourceKafkaTopicCreate, KafkaTopics.Create, hproject, hservice, htopic,
          hc, resourceKafkaTopicWait, hr] at hrun
        cases hrun
      | some r =>
        cases hout : r.outcome with
        | failure we =>
          simp only [resourceKafkaTopicCreate, KafkaTopics.Create, hproject, hservice, htopic,
            hc, resourceKafkaTopicWait, hr, hout] at hrun
          cases hrun
          exact Or.inl ⟨rfl, by simp⟩
        | success pl lbl =>
          simp only [resourceKafkaTopicCreate, KafkaTopics.Create, hproject, hservice, htopic,
            hc, resourceKafkaTopicWait, hr, hout] at hrun
          right
          exact ⟨resourceKafkaTopicRead_Id _ _ _ _ _ hrun, rfl, r, pl, lbl, rfl, hout⟩

theorem resourceKafkaTopicCreate_id_all_or_nothing_witness :
    resourceKafkaTopicCreate ⟨fun _ _ => none, fun _ _ => none⟩
        ⟨"", [("project", .str "p"), ("service_name", .str "s"), ("topic", .str "mytopic"),
          ("partitions", .int 3), ("replication", .int 2)]⟩
        ⟨fun _ _ _ => none,
          [.err ⟨"api", "Topic 'mytopic' does not exist"⟩,
            .err ⟨"api", "service unavailable"⟩,
            .topic ⟨"mytopic", "ACTIVE", [], 2, "delete", 1, -1, 72⟩], []⟩
      = .done (some (.errorf "Error waiting for Aiven Kafka topic to be ACTIVE: "
            (.FatalProbeError ⟨"api", "service unavailable"⟩)),
          ResourceData.SetId
            ⟨"", [("project", .str "p"), ("service_name", .str "s"),
              ("topic", .str "mytopic"), ("partitions", .int 3), ("replication", .int 2)]⟩ "",
          { createAnswer := fun _ _ _ => none
            getAnswers := List.drop 2
              [.err ⟨"api", "Topic 'mytopic' does not exist"⟩,
                .err ⟨"api", "service unavailable"⟩,
                .topic ⟨"mytopic", "ACTIVE", [], 2, "delete", 1, -1, 72⟩]
            calls := [] ++ [.create "p" "s" ⟨none, none, some 3, some 2, none, none, "mytopic"⟩]
              ++ List.replicate 2 (.get "p" "s" "mytopic") }) :=
  ((resourceKafkaTopicCreate_id_all_or_nothing ⟨fun _ _ => none, fun _ _ => none⟩
    ⟨"", [("project", .str "p"), ("service_name", .str "s"), ("topic", .str "mytopic"),
      ("partitions", .int 3), ("replication", .int 2)]⟩
    ⟨fun _ _ _ => none,
      [.err ⟨"api", "Topic 'mytopic' does not exist"⟩,
        .err ⟨"api", "service unavailable"⟩,
        .topic ⟨"mytopic", "ACTIVE", [], 2, "delete", 1, -1, 72⟩], []⟩
    "p" "s" "mytopic" ⟨none, none, some 3, some 2, none, none, "mytopic"⟩
    (by decide) (by decide) (by decide) (by decide)).2.1 rfl
    ⟨.failure (.FatalProbeError ⟨"api", "service unavailable"⟩), 2, 12000000000⟩ (by decide)).1
    (.FatalProbeError ⟨"api", "service unavailable"⟩) rfl |>.1

end Aiven
